import Mathlib

/-!
Verification development for the `ObjectAllocator` phase
(src/jit/objectalloc.h, src/jit/objectalloc.cpp).

The phase performs escape analysis over local variables and rewrites each
`GT_ALLOCOBJ` construction site into either a stack allocation sequence or a
heap allocation helper call.  The definitions below are a shallow embedding of
that code: trees (`GenTree`) model the JIT IR nodes the phase inspects, the
analysis state models `m_EscapingPointers` together with the per-local pointee
bit-vectors, and each C++ function is translated to a Lean function of the
same name.  External collaborators (type-system oracle, helper-purity oracle,
cycle oracle) are passed in as parameters, mirroring their interface.
-/

set_option maxRecDepth 4096

/-- JIT value types relevant to the phase: `TYP_REF`, `TYP_I_IMPL`,
`TYP_BYREF` are the pointer-like kinds; `Struct`, `IntTy`, `VoidTy` stand for
the non-participating kinds. -/
inductive VarType where
  | Ref
  | IImpl
  | Byref
  | Struct
  | IntTy
  | VoidTy
deriving DecidableEq

/-- The `gtCallType` of a call node: `CT_HELPER`, `CT_USER_FUNC`, `CT_INDIRECT`. -/
inductive CallKind where
  | Helper
  | UserFunc
  | Indirect
deriving DecidableEq

/-- IR operator tags (`GT_...`) for the node shapes the phase pattern-matches on. -/
inductive Oper where
  | LclVar
  | CnsInt
  | Asg
  | AllocObj
  | Add
  | Ind
  | EqCmp
  | NeCmp
  | Field
  | Addr
  | Call
  | ClsVar
  | BlkOp
  | ListNode
  | Nop
deriving DecidableEq

/-- Shallow embedding of the `GenTree` IR nodes inspected by the phase.
`Call` carries the `gtCallType`, the method handle, the
`GTF_CALL_M_DELEGATE_INV` flag, the receiver tree returned by `gtGetThisArg`
(`Nop` when the call has no `this` argument), and the argument list as a
`GT_LIST` chain ending in `Nop`.  `AllocObj` carries `gtNewHelper`,
`gtAllocObjClsHnd` and its single operand (the class-handle node). -/
inductive GenTree where
  | LclVar (lclNum : Nat) (ty : VarType)
  | CnsInt (value : Nat)
  | Asg (ty : VarType) (op1 op2 : GenTree)
  | AllocObj (newHelper clsHnd : Nat) (op1 : GenTree)
  | Add (op1 op2 : GenTree)
  | Ind (op1 : GenTree)
  | EqCmp (op1 op2 : GenTree)
  | NeCmp (op1 op2 : GenTree)
  | Field (offset : Nat) (obj : GenTree)
  | Addr (op1 : GenTree)
  | Call (callKind : CallKind) (methHnd : Nat) (isDelegateInvoke : Bool)
         (thisArg : GenTree) (args : GenTree)
  | ClsVar (fieldHnd : Nat)
  | BlkOp (size : Nat) (dst src : GenTree)
  | ListNode (cur rest : GenTree)
  | Nop
deriving DecidableEq

/-- `GenTree::OperGet`. -/
def GenTree.OperGet : GenTree → Oper
  | .LclVar _ _ => .LclVar
  | .CnsInt _ => .CnsInt
  | .Asg _ _ _ => .Asg
  | .AllocObj _ _ _ => .AllocObj
  | .Add _ _ => .Add
  | .Ind _ => .Ind
  | .EqCmp _ _ => .EqCmp
  | .NeCmp _ _ => .NeCmp
  | .Field _ _ => .Field
  | .Addr _ => .Addr
  | .Call _ _ _ _ _ => .Call
  | .ClsVar _ => .ClsVar
  | .BlkOp _ _ _ => .BlkOp
  | .ListNode _ _ => .ListNode
  | .Nop => .Nop

/-- One `lvaTable` entry: the slot's type and its `lvAddrExposed` flag. -/
structure LclVarDsc where
  lvType : VarType
  lvAddrExposed : Bool
deriving DecidableEq

/-- The pointer-like kinds: the condition
`type == TYP_REF || type == TYP_I_IMPL || type == TYP_BYREF`
used by `BuildConnGraph` when allocating pointee sets. -/
def isPointerKind (ty : VarType) : Bool :=
  ty == .Ref || ty == .IImpl || ty == .Byref

/-- Analysis state: `m_EscapingPointers` (the escaping root/result set) and
the `connGraphPointees` array (one `BitVec` per local; `none` models
`BitVecOps::UninitVal()` for non-participating slots). -/
structure AnalysisState where
  escapingPointers : Finset Nat
  connGraphPointees : List (Option (Finset Nat))
deriving DecidableEq

/-- `BuildConnGraphVisitorCallbackData::MarkLclVarAsNonStackAlloc`:
add the local to the escaping set (`BitVecOps::AddElemD`). -/
def MarkLclVarAsNonStackAlloc (st : AnalysisState) (lclNum : Nat) : AnalysisState :=
  { st with escapingPointers := insert lclNum st.escapingPointers }

/-- `BuildConnGraphVisitorCallbackData::SetPointerPointeeRel`.
Modelled from the spec: the body performs
`BitVecOps::AddElemD(&traits, m_connGraphPointees[pointerLclNum], pointeeLclNum)`;
`BitVecOps::AddElemD` itself is external to src/, and the spec states that an
attempt to record a pointer→pointee edge for a non-pointer-kind slot (whose
pointee set is still `UninitVal`) is a hard consistency failure in
verification builds.  We model that failure (and the out-of-range access) as
`none`. -/
def SetPointerPointeeRel (st : AnalysisState) (pointerLclNum pointeeLclNum : Nat) :
    Option AnalysisState :=
  match st.connGraphPointees[pointerLclNum]? with
  | some (some s) =>
      some { st with
        connGraphPointees :=
          st.connGraphPointees.set pointerLclNum (some (insert pointeeLclNum s)) }
  | _ => none

/-- `ObjectAllocator::CanLclVarEscapeViaParentStack`: the per-use escape
classifier.  `parentStack` lists the ancestor stack with the visited node at
index 0, its parent at index 1, its grandparent at index 2
(`ArrayStack::Index`).  `isPureHelper` is the helper-purity oracle,
the composition of `eeGetHelperNum` and `HelperCallProperties::IsPure`. -/
def CanLclVarEscapeViaParentStack (isPureHelper : Nat → Bool)
    (parentStack : List GenTree) (lclNum : Nat) : Bool :=
  match parentStack[1]? with
  | none => true
  | some parent =>
    match parent with
    | .EqCmp _ _ => false
    | .NeCmp _ _ => false
    | .Ind _ => false
    | .Field _ _ =>
        match parentStack[2]? with
        | some grandParent => grandParent.OperGet == Oper.Addr
        | none => true
    | .Add _ _ =>
        match parentStack[2]? with
        | some grandParent =>
            match grandParent with
            | .Ind _ => false
            | _ => true
        | none => true
    | .Call callKind methHnd isDelegateInvoke thisArg _args =>
        if callKind == CallKind.Helper then
          if isPureHelper methHnd then false else true
        else if callKind == CallKind.UserFunc then
          if isDelegateInvoke then
            match thisArg with
            | .LclVar n _ => if n == lclNum then false else true
            | _ => true
          else true
        else true
    | _ => true

/-- `ObjectAllocator::BuildConnGraphVisitor`: one visit of the pre-order tree
walk.  `stack` is the full parent stack with the visited node first.  `none`
models the cases where the C++ dereferences a missing parent or where
`SetPointerPointeeRel` fails (see there). -/
def BuildConnGraphVisitor (isPureHelper : Nat → Bool) (st : AnalysisState)
    (stack : List GenTree) : Option AnalysisState :=
  match stack with
  | [] => none
  | tree :: rest =>
    match tree with
    | .LclVar lclNum ty =>
      if ty == .Ref || ty == .IImpl then
        match rest with
        | [] => none
        | parent :: ancestors =>
          match parent with
          | .Asg _aty op1 _op2 =>
            if op1 == tree then
              -- lclVar on the lhs of GT_ASG: no analysis
              some st
            else
              match op1 with
              | .LclVar pointerLclNum _ =>
                  SetPointerPointeeRel st pointerLclNum lclNum
              | _ => some (MarkLclVarAsNonStackAlloc st lclNum)
          | .Add _ _ =>
            match ancestors with
            | [] => none
            | grandParent :: _ =>
              match grandParent with
              | .Asg _ op1 _ =>
                match op1 with
                | .LclVar pointerLclNum _ =>
                    SetPointerPointeeRel st pointerLclNum lclNum
                | _ => some st
              | _ =>
                if CanLclVarEscapeViaParentStack isPureHelper stack lclNum then
                  some (MarkLclVarAsNonStackAlloc st lclNum)
                else some st
          | _ =>
            if CanLclVarEscapeViaParentStack isPureHelper stack lclNum then
              some (MarkLclVarAsNonStackAlloc st lclNum)
            else some st
      else some st
    | _ => some st

/-- `Compiler::fgWalkTreePre` with `computeStack = true`, specialised to
`BuildConnGraphVisitor`: pre-order traversal applying the visitor at every
node while maintaining the ancestor stack (`anc`, nearest parent first). -/
def fgWalkTreePre (isPureHelper : Nat → Bool) :
    AnalysisState → List GenTree → GenTree → Option AnalysisState
  | st, anc, .LclVar l ty => BuildConnGraphVisitor isPureHelper st (GenTree.LclVar l ty :: anc)
  | st, anc, .CnsInt v => BuildConnGraphVisitor isPureHelper st (GenTree.CnsInt v :: anc)
  | st, anc, .ClsVar f => BuildConnGraphVisitor isPureHelper st (GenTree.ClsVar f :: anc)
  | st, anc, .Nop => BuildConnGraphVisitor isPureHelper st (GenTree.Nop :: anc)
  | st, anc, .Asg ty a b =>
    (BuildConnGraphVisitor isPureHelper st (GenTree.Asg ty a b :: anc)).bind fun st1 =>
      (fgWalkTreePre isPureHelper st1 (GenTree.Asg ty a b :: anc) a).bind fun st2 =>
        fgWalkTreePre isPureHelper st2 (GenTree.Asg ty a b :: anc) b
  | st, anc, .AllocObj nh ch a =>
    (BuildConnGraphVisitor isPureHelper st (GenTree.AllocObj nh ch a :: anc)).bind fun st1 =>
      fgWalkTreePre isPureHelper st1 (GenTree.AllocObj nh ch a :: anc) a
  | st, anc, .Add a b =>
    (BuildConnGraphVisitor isPureHelper st (GenTree.Add a b :: anc)).bind fun st1 =>
      (fgWalkTreePre isPureHelper st1 (GenTree.Add a b :: anc) a).bind fun st2 =>
        fgWalkTreePre isPureHelper st2 (GenTree.Add a b :: anc) b
  | st, anc, .Ind a =>
    (BuildConnGraphVisitor isPureHelper st (GenTree.Ind a :: anc)).bind fun st1 =>
      fgWalkTreePre isPureHelper st1 (GenTree.Ind a :: anc) a
  | st, anc, .EqCmp a b =>
    (BuildConnGraphVisitor isPureHelper st (GenTree.EqCmp a b :: anc)).bind fun st1 =>
      (fgWalkTreePre isPureHelper st1 (GenTree.EqCmp a b :: anc) a).bind fun st2 =>
        fgWalkTreePre isPureHelper st2 (GenTree.EqCmp a b :: anc) b
  | st, anc, .NeCmp a b =>
    (BuildConnGraphVisitor isPureHelper st (GenTree.NeCmp a b :: anc)).bind fun st1 =>
      (fgWalkTreePre isPureHelper st1 (GenTree.NeCmp a b :: anc) a).bind fun st2 =>
        fgWalkTreePre isPureHelper st2 (GenTree.NeCmp a b :: anc) b
  | st, anc, .Field off a =>
    (BuildConnGraphVisitor isPureHelper st (GenTree.Field off a :: anc)).bind fun st1 =>
      fgWalkTreePre isPureHelper st1 (GenTree.Field off a :: anc) a
  | st, anc, .Addr a =>
    (BuildConnGraphVisitor isPureHelper st (GenTree.Addr a :: anc)).bind fun st1 =>
      fgWalkTreePre isPureHelper st1 (GenTree.Addr a :: anc) a
  | st, anc, .Call ck mh dinv thisArg args =>
    (BuildConnGraphVisitor isPureHelper st
        (GenTree.Call ck mh dinv thisArg args :: anc)).bind fun st1 =>
      (fgWalkTreePre isPureHelper st1
          (GenTree.Call ck mh dinv thisArg args :: anc) thisArg).bind fun st2 =>
        fgWalkTreePre isPureHelper st2 (GenTree.Call ck mh dinv thisArg args :: anc) args
  | st, anc, .BlkOp sz a b =>
    (BuildConnGraphVisitor isPureHelper st (GenTree.BlkOp sz a b :: anc)).bind fun st1 =>
      (fgWalkTreePre isPureHelper st1 (GenTree.BlkOp sz a b :: anc) a).bind fun st2 =>
        fgWalkTreePre isPureHelper st2 (GenTree.BlkOp sz a b :: anc) b
  | st, anc, .ListNode a b =>
    (BuildConnGraphVisitor isPureHelper st (GenTree.ListNode a b :: anc)).bind fun st1 =>
      (fgWalkTreePre isPureHelper st1 (GenTree.ListNode a b :: anc) a).bind fun st2 =>
        fgWalkTreePre isPureHelper st2 (GenTree.ListNode a b :: anc) b

/-- The statement loop of `BuildConnGraph`: walk every statement expression of
every block, threading the analysis state. -/
def walkStmts (isPureHelper : Nat → Bool) :
    AnalysisState → List GenTree → Option AnalysisState
  | st, [] => some st
  | st, s :: rest =>
    (fgWalkTreePre isPureHelper st [] s).bind fun st1 =>
      walkStmts isPureHelper st1 rest

/-- The initialisation loop of `BuildConnGraph`: every slot of pointer kind
gets an empty pointee set (others stay `UninitVal`), and every pointer-kind
slot already flagged `lvAddrExposed` seeds the escaping set.  The C++ loop
writes each index exactly once, so it is rendered index-wise. -/
def initConnGraphState (lvaTable : List LclVarDsc) : AnalysisState :=
  { escapingPointers :=
      ((List.range lvaTable.length).filter (fun i =>
        match lvaTable[i]? with
        | some d => isPointerKind d.lvType && d.lvAddrExposed
        | none => false)).toFinset
    connGraphPointees :=
      lvaTable.map (fun d => if isPointerKind d.lvType then some ∅ else none) }

/-- `ObjectAllocator::BuildConnGraph`: initialise the per-slot pointee sets
and root set, then walk every statement with `BuildConnGraphVisitor`. -/
def BuildConnGraph (lvaTable : List LclVarDsc) (isPureHelper : Nat → Bool)
    (stmts : List GenTree) : Option AnalysisState :=
  walkStmts isPureHelper (initConnGraphState lvaTable) stmts

/-- The fuelled worklist loop of `ObjectAllocator::ComputeReachableNodes`.
Each step takes one element `lclNum` out of the `pointers` worklist, computes
`pointees = adjacentNodes[lclNum] \ reachableNodes`, unions the new pointees
into both the worklist and the reachable set, and removes `lclNum` from the
worklist — exactly the body of the C++ loop nest.  The loop terminates when
the worklist is empty; the fuel is a step counter shown below to be large
enough (`CRNAux_pointers_empty`). -/
def CRNAux {n : Nat} (adj : Fin n → Finset (Fin n)) :
    Nat → Finset (Fin n) → Finset (Fin n) → Finset (Fin n) × Finset (Fin n)
  | 0, reachableNodes, pointers => (reachableNodes, pointers)
  | fuel + 1, reachableNodes, pointers =>
    if h : pointers.Nonempty then
      let lclNum := pointers.min' h
      let pointees := adj lclNum \ reachableNodes
      CRNAux adj fuel (reachableNodes ∪ pointees) ((pointers ∪ pointees).erase lclNum)
    else (reachableNodes, pointers)

/-- `ObjectAllocator::ComputeReachableNodes`: worklist reachability from the
seed set `reachableNodes` (the escaping roots) over `adjacentNodes`.  `n` is
`lvaCount` (the size of the bit-vector traits). -/
def ComputeReachableNodes (n : Nat) (adjacentNodes : Fin n → Finset (Fin n))
    (reachableNodes : Finset (Fin n)) : Finset (Fin n) :=
  (CRNAux adjacentNodes ((n + 1) * (n + 1)) reachableNodes reachableNodes).1

/-- The pointee set recorded for slot `i` (empty when uninitialised). -/
def pointeesAt (st : AnalysisState) (i : Nat) : Finset Nat :=
  match st.connGraphPointees[i]? with
  | some (some s) => s
  | _ => ∅

/-- The escaping roots of `st`, restricted to slot ids below `n`. -/
def rootsFin (st : AnalysisState) (n : Nat) : Finset (Fin n) :=
  Finset.univ.filter (fun i => i.val ∈ st.escapingPointers)

/-- The adjacency structure of `st` over slot ids below `n`. -/
def adjFin (st : AnalysisState) (n : Nat) : Fin n → Finset (Fin n) :=
  fun i => Finset.univ.filter (fun j => j.val ∈ pointeesAt st i.val)

/-- `ObjectAllocator::DoAnalysis`: build the connectivity graph, then close
the escaping root set under reachability.  Returns the final
`m_EscapingPointers` as a set of slot ids. -/
def DoAnalysis (lvaTable : List LclVarDsc) (isPureHelper : Nat → Bool)
    (stmts : List GenTree) : Option (Finset Nat) :=
  if 0 < lvaTable.length then
    match BuildConnGraph lvaTable isPureHelper stmts with
    | none => none
    | some st =>
        some ((ComputeReachableNodes lvaTable.length (adjFin st lvaTable.length)
                (rootsFin st lvaTable.length)).image Fin.val)
  else some ∅

/-- The pointee set slot `i` ends up with after `BuildConnGraph` (empty when
the build fails or the slot has no set). -/
def buildPointees (lvaTable : List LclVarDsc) (isPureHelper : Nat → Bool)
    (stmts : List GenTree) (i : Nat) : Finset Nat :=
  match BuildConnGraph lvaTable isPureHelper stmts with
  | some st => pointeesAt st i
  | none => ∅

/-- The escaping root set `BuildConnGraph` produces (empty when the build fails). -/
def buildRoots (lvaTable : List LclVarDsc) (isPureHelper : Nat → Bool)
    (stmts : List GenTree) : Finset Nat :=
  match BuildConnGraph lvaTable isPureHelper stmts with
  | some st => st.escapingPointers
  | none => ∅

/-! ### Properties of the worklist closure `ComputeReachableNodes` -/

theorem CRNAux_fst_mono {n : Nat} (adj : Fin n → Finset (Fin n)) :
    ∀ (fuel : Nat) (R P : Finset (Fin n)), R ⊆ (CRNAux adj fuel R P).1 := by
  intro fuel
  induction fuel with
  | zero => intro R P; simp [CRNAux]
  | succ f ih =>
    intro R P
    rw [CRNAux]
    by_cases h : P.Nonempty
    · simp only [dif_pos h]
      exact Finset.subset_union_left.trans (ih _ _)
    · simp [dif_neg h]

theorem CRNAux_fst_subset {n : Nat} (adj : Fin n → Finset (Fin n))
    (S : Finset (Fin n)) (hS : ∀ A ∈ S, adj A ⊆ S) :
    ∀ (fuel : Nat) (R P : Finset (Fin n)), R ⊆ S → P ⊆ S →
      (CRNAux adj fuel R P).1 ⊆ S := by
  intro fuel
  induction fuel with
  | zero => intro R P hR _; simpa [CRNAux] using hR
  | succ f ih =>
    intro R P hR hP
    rw [CRNAux]
    by_cases h : P.Nonempty
    · simp only [dif_pos h]
      have hlcl : P.min' h ∈ S := hP (P.min'_mem h)
      have hpts : adj (P.min' h) \ R ⊆ S :=
        Finset.sdiff_subset.trans (hS _ hlcl)
      refine ih _ _ (Finset.union_subset hR hpts) ?_
      exact (Finset.erase_subset _ _).trans (Finset.union_subset hP hpts)
    · simpa [dif_neg h] using hR

/-- Loop invariant of the worklist: the worklist is contained in the
reachable set, and every reachable slot no longer on the worklist already has
all its pointees in the reachable set. -/
def CRNInv {n : Nat} (adj : Fin n → Finset (Fin n)) (R P : Finset (Fin n)) : Prop :=
  P ⊆ R ∧ ∀ A ∈ R, A ∉ P → adj A ⊆ R

theorem CRNAux_inv {n : Nat} (adj : Fin n → Finset (Fin n)) :
    ∀ (fuel : Nat) (R P : Finset (Fin n)), CRNInv adj R P →
      CRNInv adj (CRNAux adj fuel R P).1 (CRNAux adj fuel R P).2 := by
  intro fuel
  induction fuel with
  | zero => intro R P hInv; simpa [CRNAux] using hInv
  | succ f ih =>
    intro R P hInv
    rw [CRNAux]
    by_cases h : P.Nonempty
    · simp only [dif_pos h]
      apply ih
      obtain ⟨hPR, hK⟩ := hInv
      constructor
      · exact (Finset.erase_subset _ _).trans
          (Finset.union_subset_union hPR (Finset.Subset.refl _))
      · intro A hA hAnot
        rcases Finset.mem_union.mp hA with hAR | hApts
        · by_cases hAl : A = P.min' h
          · intro x hx
            by_cases hxR : x ∈ R
            · exact Finset.mem_union_left _ hxR
            · refine Finset.mem_union_right _ (Finset.mem_sdiff.mpr ⟨?_, hxR⟩)
              rw [hAl] at hx
              exact hx
          · have hAP : A ∉ P := by
              intro hAP
              exact hAnot (Finset.mem_erase.mpr ⟨hAl, Finset.mem_union_left _ hAP⟩)
            exact (hK A hAR hAP).trans Finset.subset_union_left
        · exfalso
          by_cases hAl : A = P.min' h
          · have hlclR : A ∈ R := by
              rw [hAl]
              exact hPR (P.min'_mem h)
            exact (Finset.mem_sdiff.mp hApts).2 hlclR
          · exact hAnot (Finset.mem_erase.mpr ⟨hAl, Finset.mem_union_right _ hApts⟩)
    · simpa [dif_neg h] using hInv

theorem CRNAux_pointers_empty {n : Nat} (adj : Fin n → Finset (Fin n)) :
    ∀ (fuel : Nat) (R P : Finset (Fin n)),
      (n - R.card) * (n + 1) + P.card ≤ fuel → (CRNAux adj fuel R P).2 = ∅ := by
  intro fuel
  induction fuel with
  | zero =>
    intro R P hle
    have hP : P.card = 0 := by omega
    simp [CRNAux, Finset.card_eq_zero.mp hP]
  | succ f ih =>
    intro R P hle
    rw [CRNAux]
    by_cases h : P.Nonempty
    · simp only [dif_pos h]
      apply ih
      have hlclP : P.min' h ∈ P := P.min'_mem h
      by_cases hpe : adj (P.min' h) \ R = ∅
      · have hcP : 1 ≤ P.card := Finset.card_pos.mpr h
        rw [hpe, Finset.union_empty, Finset.union_empty,
          Finset.card_erase_of_mem hlclP]
        omega
      · have hk : 1 ≤ (adj (P.min' h) \ R).card :=
          Finset.card_pos.mpr (Finset.nonempty_iff_ne_empty.mpr hpe)
        have hn : 1 ≤ n := (P.min' h).pos
        have hdisj : Disjoint R (adj (P.min' h) \ R) := Finset.sdiff_disjoint.symm
        have hcardU : (R ∪ adj (P.min' h) \ R).card =
            R.card + (adj (P.min' h) \ R).card :=
          Finset.card_union_of_disjoint hdisj
        have hub : (R ∪ adj (P.min' h) \ R).card ≤ n := by
          simpa [Fintype.card_fin] using Finset.card_le_univ (R ∪ adj (P.min' h) \ R)
        have hRub : R.card ≤ n := by
          simpa [Fintype.card_fin] using Finset.card_le_univ R
        have hP' : ((P ∪ adj (P.min' h) \ R).erase (P.min' h)).card ≤
            P.card + (adj (P.min' h) \ R).card :=
          (Finset.card_erase_le).trans (Finset.card_union_le _ _)
        have hka : (adj (P.min' h) \ R).card ≤ n - R.card := by omega
        have e1 : (n - R.card) * (n + 1) =
            (n - R.card - (adj (P.min' h) \ R).card) * (n + 1)
            + (adj (P.min' h) \ R).card * (n + 1) := by
          have hsum : n - R.card - (adj (P.min' h) \ R).card
              + (adj (P.min' h) \ R).card = n - R.card := Nat.sub_add_cancel hka
          calc (n - R.card) * (n + 1)
              = (n - R.card - (adj (P.min' h) \ R).card
                + (adj (P.min' h) \ R).card) * (n + 1) := by rw [hsum]
            _ = (n - R.card - (adj (P.min' h) \ R).card) * (n + 1)
                + (adj (P.min' h) \ R).card * (n + 1) := by rw [Nat.add_mul]
        have e2 : (adj (P.min' h) \ R).card * (n + 1) =
            (adj (P.min' h) \ R).card * n + (adj (P.min' h) \ R).card := by
          rw [Nat.mul_add, Nat.mul_one]
        have h3 : 1 ≤ (adj (P.min' h) \ R).card * n :=
          Nat.one_le_iff_ne_zero.mpr (by positivity)
        have e3 : (n - (R ∪ adj (P.min' h) \ R).card) * (n + 1) =
            (n - R.card - (adj (P.min' h) \ R).card) * (n + 1) := by
          rw [hcardU, Nat.sub_add_eq]
        omega
    · simp only [dif_neg h]
      exact Finset.not_nonempty_iff_eq_empty.mp h

/-- `ComputeReachableNodes` computes the least fixed point containing the
roots and closed under the adjacency (points-to) relation. -/
theorem ComputeReachableNodes_spec {n : Nat} (adj : Fin n → Finset (Fin n))
    (roots : Finset (Fin n)) :
    roots ⊆ ComputeReachableNodes n adj roots
    ∧ (∀ A ∈ ComputeReachableNodes n adj roots,
        adj A ⊆ ComputeReachableNodes n adj roots)
    ∧ (∀ S : Finset (Fin n), roots ⊆ S → (∀ A ∈ S, adj A ⊆ S) →
        ComputeReachableNodes n adj roots ⊆ S) := by
  refine ⟨CRNAux_fst_mono adj _ _ _, ?_, ?_⟩
  · have hInv0 : CRNInv adj roots roots :=
      ⟨Finset.Subset.refl _, fun A hA hnot => absurd hA hnot⟩
    have hInv := CRNAux_inv adj ((n + 1) * (n + 1)) roots roots hInv0
    have hcard : roots.card ≤ n := by
      simpa [Fintype.card_fin] using Finset.card_le_univ roots
    have hfuel : (n - roots.card) * (n + 1) + roots.card ≤ (n + 1) * (n + 1) := by
      have h1 : (n - roots.card) * (n + 1) ≤ n * (n + 1) :=
        Nat.mul_le_mul_right _ (Nat.sub_le _ _)
      have h2 : (n + 1) * (n + 1) = n * (n + 1) + (n + 1) := by ring
      omega
    have hemp := CRNAux_pointers_empty adj ((n + 1) * (n + 1)) roots roots hfuel
    intro A hA
    have := hInv.2 A (by simpa [ComputeReachableNodes] using hA)
    rw [hemp] at this
    simpa [ComputeReachableNodes] using this (by simp)
  · intro S hRS hSclosed
    exact CRNAux_fst_subset adj S hSclosed _ _ _ hRS hRS

/-! ### The transitive-escape scenario `t = new X(); u = t; g = u;` -/

/-- Local table for the scenario: `t` is V00, `u` is V01, both `TYP_REF`,
neither address-exposed.  The global `g` is not a local slot. -/
def scnTable : List LclVarDsc := [⟨.Ref, false⟩, ⟨.Ref, false⟩]

/-- Helper-purity oracle used by the concrete scenarios (no pure helpers). -/
def scnPureHelper : Nat → Bool := fun _ => false

/-- `t = new X(); u = t; g = u;` in canonical IR shape (`g` a static field). -/
def scnStmts : List GenTree :=
  [ .Asg .Ref (.LclVar 0 .Ref) (.AllocObj 0 7 (.CnsInt 7)),
    .Asg .Ref (.LclVar 1 .Ref) (.LclVar 0 .Ref),
    .Asg .Ref (.ClsVar 3) (.LclVar 1 .Ref) ]

/-- C1: after `ComputeReachableNodes` runs on the connectivity graph and the
seed root set, the escaping set is the least fixed point containing the roots
and closed under the points-to relation: whenever A is escaping and the graph
has an edge A→B, B is escaping as well; and in the scenario
`t = new X(); u = t; g = u;` the edge u→t propagates escape from u (V01) to
t (V00), so the analysis ends with both slots in the escaping set. -/
theorem C1_escaping_set_is_least_fixed_point :
    (∀ (n : Nat) (adj : Fin n → Finset (Fin n)) (roots : Finset (Fin n)),
        roots ⊆ ComputeReachableNodes n adj roots
      ∧ (∀ A B : Fin n, A ∈ ComputeReachableNodes n adj roots → B ∈ adj A →
          B ∈ ComputeReachableNodes n adj roots)
      ∧ (∀ S : Finset (Fin n), roots ⊆ S →
          (∀ A B : Fin n, A ∈ S → B ∈ adj A → B ∈ S) →
          ComputeReachableNodes n adj roots ⊆ S))
    ∧ ((DoAnalysis scnTable scnPureHelper scnStmts).isSome = true
      ∧ (DoAnalysis scnTable scnPureHelper scnStmts).getD ∅ = {0, 1}) := by
  constructor
  · intro n adj roots
    obtain ⟨h1, h2, h3⟩ := ComputeReachableNodes_spec adj roots
    exact ⟨h1, fun A B hA hB => h2 A hA hB,
      fun S hS hcl => h3 S hS (fun A hA => fun B hB => hcl A B hA hB)⟩
  · exact ⟨by decide, by decide⟩

/-- Witness for C1 at a concrete instance: two slots, edge 0→1, root 0;
both 0 and 1 are computed reachable. -/
theorem C1_escaping_set_is_least_fixed_point_witness :
    (0 : Fin 2) ∈ ComputeReachableNodes 2 (fun i => if i = 0 then {1} else ∅) {0}
    ∧ (1 : Fin 2) ∈ ComputeReachableNodes 2 (fun i => if i = 0 then {1} else ∅) {0} := by
  have h := C1_escaping_set_is_least_fixed_point.1 2
    (fun i => if i = 0 then {1} else ∅) {0}
  have h0 : (0 : Fin 2) ∈ ComputeReachableNodes 2
      (fun i => if i = 0 then {1} else ∅) {0} := h.1 (by decide)
  exact ⟨h0, h.2.1 0 1 h0 (by decide)⟩

/-- Program for the C3 counterexample: `t = new X(); g = t; u = t;`.
Here `t` (V00) escapes through the global store, and the statement `u = t`
records the edge u→t, i.e. V01→V00. -/
def c3Stmts : List GenTree :=
  [ .Asg .Ref (.LclVar 0 .Ref) (.AllocObj 0 7 (.CnsInt 7)),
    .Asg .Ref (.ClsVar 3) (.LclVar 0 .Ref),
    .Asg .Ref (.LclVar 1 .Ref) (.LclVar 0 .Ref) ]

/-- C3 counterexample: escape does NOT propagate backward along a points-to
edge.  After the full analysis of `t = new X(); g = t; u = t;`, slot B = V00
is escaping, the connectivity graph has the edge A→B = V01→V00, and yet
A = V01 is not in the escaping set: the closure propagates forward from the
roots only. -/
theorem C3_backward_closure_counterexample :
    (DoAnalysis scnTable scnPureHelper c3Stmts).isSome = true
    ∧ (DoAnalysis scnTable scnPureHelper c3Stmts).getD ∅ = {0}
    ∧ 0 ∈ buildPointees scnTable scnPureHelper c3Stmts 1
    ∧ 1 ∉ (DoAnalysis scnTable scnPureHelper c3Stmts).getD ∅ := by
  refine ⟨by decide, by decide, by decide, by decide⟩

/-- C3 amended: the invariant that actually holds of the closure is the
forward one — if A is in the escaping set and A→B is an edge of the
connectivity graph, then B is in the escaping set. -/
theorem C3_forward_closure_amended :
    ∀ (n : Nat) (adj : Fin n → Finset (Fin n)) (roots : Finset (Fin n))
      (A B : Fin n), A ∈ ComputeReachableNodes n adj roots → B ∈ adj A →
      B ∈ ComputeReachableNodes n adj roots := by
  intro n adj roots A B hA hB
  exact (ComputeReachableNodes_spec adj roots).2.1 A hA hB

/-- Witness for the amended C3 at a concrete instance. -/
theorem C3_forward_closure_amended_witness :
    (1 : Fin 2) ∈ ComputeReachableNodes 2 (fun i => if i = 0 then {1} else ∅) {0} :=
  C3_forward_closure_amended 2 (fun i => if i = 0 then {1} else ∅) {0} 0 1
    ((ComputeReachableNodes_spec _ _).1 (by decide)) (by decide)

/-! ### The per-use escape classifier: field rule (C2) and delegate rule (C9) -/

/-- C2 counterexample: for a use whose immediate parent is a field-access
node, the classifier does NOT return "does not escape" when the field's own
parent is an address-of node — it returns "escapes" exactly then, and it
returns "does not escape" in the other field contexts.  Concretely, with
parent `GT_FIELD` and grandparent `GT_ADDR` the classifier answers `true`
(escapes), and with grandparent `GT_ASG` it answers `false`. -/
theorem C2_field_rule_counterexample :
    CanLclVarEscapeViaParentStack scnPureHelper
      [ .LclVar 0 .Ref,
        .Field 8 (.LclVar 0 .Ref),
        .Addr (.Field 8 (.LclVar 0 .Ref)) ] 0 = true
    ∧ CanLclVarEscapeViaParentStack scnPureHelper
      [ .LclVar 0 .Ref,
        .Field 8 (.LclVar 0 .Ref),
        .Asg .IImpl (.ClsVar 4) (.Field 8 (.LclVar 0 .Ref)) ] 0 = false := by
  exact ⟨rfl, rfl⟩

/-- C2 amended: for a use whose immediate parent is a field-access node, the
classifier returns "does not escape" exactly when the field node has a
grandparent on the ancestor stack and that grandparent is NOT an address-of
node; when the grandparent is an address-of node, or the field access is the
topmost ancestor, the use is classified as escaping. -/
theorem C2_field_rule_amended :
    ∀ (isPureHelper : Nat → Bool) (t : GenTree) (off : Nat) (obj : GenTree)
      (rest : List GenTree) (lclNum : Nat),
      CanLclVarEscapeViaParentStack isPureHelper
          (t :: .Field off obj :: rest) lclNum = false
        ↔ ∃ gp, rest.head? = some gp ∧ gp.OperGet ≠ Oper.Addr := by
  intro isPureHelper t off obj rest lclNum
  cases rest with
  | nil => simp [CanLclVarEscapeViaParentStack]
  | cons gp rest' =>
    simp [CanLclVarEscapeViaParentStack]

/-- C9: for a use of a local whose immediate parent is a direct user call
flagged as a delegate invocation, the classifier answers "does not escape"
whenever the call's `this` argument is a local-variable node carrying the
same local number — regardless of which operand of the call the classified
occurrence is.  The code compares only the local number of `gtGetThisArg`
with the local being classified. -/
theorem C9_delegate_invoke_receiver :
    ∀ (isPureHelper : Nat → Bool) (occ : GenTree) (methHnd : Nat)
      (args : GenTree) (rest : List GenTree) (lclNum : Nat) (ty : VarType),
      CanLclVarEscapeViaParentStack isPureHelper
        (occ :: .Call .UserFunc methHnd true (.LclVar lclNum ty) args :: rest)
        lclNum = false := by
  intro isPureHelper occ methHnd args rest lclNum ty
  simp [CanLclVarEscapeViaParentStack]

/-! ### Eligibility policy (`objectalloc.h`) -/

/-- `ObjectAllocator::s_StackAllocMaxSize = 0x2000U`. -/
def s_StackAllocMaxSize : Nat := 0x2000

/-- The class metadata the type-system oracle reports for a class handle:
`classHasFinalizer`, `isValueClass`, `getClassSize`, `getHeapClassSize`, and
the layout size `lvaTable[lclNum].lvSize()` assigned by `lvaSetStruct`. -/
structure ClassInfo where
  hasFinalizer : Bool
  isValueClass : Bool
  classSize : Nat
  heapClassSize : Nat
  lvSize : Nat
deriving DecidableEq

/-- `ObjectAllocator::CanLclVarEscape` (a membership query on
`m_EscapingPointers` after the analysis completes). -/
def CanLclVarEscape (escapingPointers : Finset Nat) (lclNum : Nat) : Bool :=
  decide (lclNum ∈ escapingPointers)

/-- `ObjectAllocator::CanAllocateLclVarOnStack`: eligible iff the slot cannot
escape, the class has no finalizer, and the class size (value-class size or
heap instance size, per `isValueClass`) does not exceed the maximum. -/
def CanAllocateLclVarOnStack (escapingPointers : Finset Nat) (lclNum : Nat)
    (cls : ClassInfo) : Bool :=
  let classSize := if cls.isValueClass then cls.classSize else cls.heapClassSize
  !(CanLclVarEscape escapingPointers lclNum) && !cls.hasFinalizer
    && decide (classSize ≤ s_StackAllocMaxSize)

/-- C6: after analysis completion a slot is stack-eligible iff it is absent
from the escaping set, its class declares no finalizer, and its instance
size is at most 8192 bytes; size exactly 8192 is eligible and 8193 is not. -/
theorem C6_eligibility_iff :
    (∀ (escapingPointers : Finset Nat) (lclNum : Nat) (cls : ClassInfo),
        CanAllocateLclVarOnStack escapingPointers lclNum cls = true ↔
          (lclNum ∉ escapingPointers ∧ cls.hasFinalizer = false ∧
            (if cls.isValueClass then cls.classSize else cls.heapClassSize) ≤ 8192))
    ∧ CanAllocateLclVarOnStack ∅ 0 ⟨false, false, 0, 8192, 0⟩ = true
    ∧ CanAllocateLclVarOnStack ∅ 0 ⟨false, false, 0, 8193, 0⟩ = false := by
  refine ⟨?_, by decide, by decide⟩
  intro escapingPointers lclNum cls
  simp [CanAllocateLclVarOnStack, CanLclVarEscape, s_StackAllocMaxSize, and_assoc]

/-! ### The allocation rewriter (`MorphAllocObjNodes` and helpers) -/

/-- Result of morphing one statement: the statements newly inserted before it
(`fgInsertStmtBefore`, in program order) and the statement's expression after
the rewrite. -/
structure MorphedStmt where
  pre : List GenTree
  expr : GenTree
deriving DecidableEq

/-- Result of `MorphAllocObjNodeIntoStackAlloc`: the inserted statements and
the tree the `GT_ALLOCOBJ` node was mutated into. -/
structure StackAllocResult where
  insertedStmts : List GenTree
  replacement : GenTree
deriving DecidableEq

/-- `ObjectAllocator::MorphAllocObjNodeIntoHelperCall`: morph the
`GT_ALLOCOBJ` node into a call to its `gtNewHelper` allocation helper whose
argument list is `gtNewArgList(op1)` — the class-handle operand as the sole
argument. -/
def MorphAllocObjNodeIntoHelperCall (newHelper : Nat) (op1 : GenTree) : GenTree :=
  .Call .Helper newHelper false .Nop (.ListNode op1 .Nop)

/-- `ObjectAllocator::MorphAllocObjNodeIntoStackAlloc`: grab a fresh struct
temp laid out for the class (`lvaGrabTemp` + `lvaSetStruct`, with
`structSize = lvaTable[lclNum].lvSize()`), insert a statement zero-filling
the whole slot, then a statement storing the class identity (`op1` of the
`GT_ALLOCOBJ`) into the field at `getObjHeaderSize()` of the slot, and mutate
the `GT_ALLOCOBJ` node in place into `GT_ADD(GT_ADDR(lclVar), objHeaderSize)`. -/
def MorphAllocObjNodeIntoStackAlloc (allocObjOp1 : GenTree)
    (lclNum structSize objHeaderSize : Nat) : StackAllocResult :=
  let zeroFill := GenTree.BlkOp structSize (.LclVar lclNum .Struct) (.CnsInt 0)
  let headerStore := GenTree.Asg .IImpl
    (.Field objHeaderSize (.Addr (.LclVar lclNum .Struct))) allocObjOp1
  let replacement := GenTree.Add (.Addr (.LclVar lclNum .Struct))
    (.CnsInt objHeaderSize)
  ⟨[zeroFill, headerStore], replacement⟩

/-- The per-statement body of `ObjectAllocator::MorphAllocObjNodes`: detect
the canonical shape (a top-level `GT_ASG` of type `TYP_REF` whose `op2` is a
`GT_ALLOCOBJ`; its `op1` is then asserted to be a `TYP_REF` `GT_LCL_VAR`),
and rewrite `op2` to a stack allocation when stack allocation is enabled, the
destination is eligible, and the owning block is not part of a cycle —
otherwise to the allocation helper call.  `freshLclNum` models the next
number `lvaGrabTemp` returns; `none` models the debug assertion failing on a
non-canonical `op1`.  Statements not in canonical shape are returned
unchanged. -/
def MorphAllocObjStmt (enabled : Bool) (escapingPointers : Finset Nat)
    (classInfoOf : Nat → ClassInfo) (objHeaderSize : Nat) (inCycle : Bool)
    (freshLclNum : Nat) (stmtExpr : GenTree) : Option (MorphedStmt × Nat) :=
  match stmtExpr with
  | .Asg .Ref op1 (.AllocObj newHelper clsHnd allocObjOp1) =>
    match op1 with
    | .LclVar lclNum .Ref =>
      if enabled && CanAllocateLclVarOnStack escapingPointers lclNum (classInfoOf clsHnd)
          && !inCycle then
        let r := MorphAllocObjNodeIntoStackAlloc allocObjOp1 freshLclNum
          (classInfoOf clsHnd).lvSize objHeaderSize
        some (⟨r.insertedStmts, .Asg .Ref (.LclVar lclNum .Ref) r.replacement⟩,
          freshLclNum + 1)
      else
        some (⟨[], .Asg .Ref (.LclVar lclNum .Ref)
          (MorphAllocObjNodeIntoHelperCall newHelper allocObjOp1)⟩, freshLclNum)
    | _ => none
  | e => some (⟨[], e⟩, freshLclNum)

/-- A basic block as the rewriter sees it: its `bbNum`, the
`BBF_HAS_NEWOBJ` flag, and its statement expressions. -/
structure BasicBlock where
  bbNum : Nat
  hasNewObj : Bool
  stmts : List GenTree
deriving DecidableEq

/-- The statement loop of `MorphAllocObjNodes` over one block: morph each
statement, splicing the inserted statements directly before it. -/
def MorphStmtList (enabled : Bool) (escapingPointers : Finset Nat)
    (classInfoOf : Nat → ClassInfo) (objHeaderSize : Nat) (inCycle : Bool) :
    Nat → List GenTree → Option (List GenTree × Nat)
  | freshLclNum, [] => some ([], freshLclNum)
  | freshLclNum, s :: rest =>
    match MorphAllocObjStmt enabled escapingPointers classInfoOf objHeaderSize
        inCycle freshLclNum s with
    | none => none
    | some (m, fresh1) =>
      match MorphStmtList enabled escapingPointers classInfoOf objHeaderSize
          inCycle fresh1 rest with
      | none => none
      | some (out, fresh2) => some (m.pre ++ m.expr :: out, fresh2)

/-- `ObjectAllocator::MorphAllocObjNodes` over the block list, as compiled in
non-verification (release) builds: a block whose `BBF_HAS_NEWOBJ` flag is
clear is skipped entirely (`continue`); otherwise its statements are morphed,
with cycle membership for the block queried from the Tarjan SCC oracle
`isPartOfCycle` at the block's `bbNum`. -/
def MorphAllocObjNodes (enabled : Bool) (escapingPointers : Finset Nat)
    (classInfoOf : Nat → ClassInfo) (objHeaderSize : Nat)
    (isPartOfCycle : Nat → Bool) :
    Nat → List BasicBlock → Option (List BasicBlock × Nat)
  | freshLclNum, [] => some ([], freshLclNum)
  | freshLclNum, b :: bs =>
    if !b.hasNewObj then
      match MorphAllocObjNodes enabled escapingPointers classInfoOf objHeaderSize
          isPartOfCycle freshLclNum bs with
      | none => none
      | some (out, fresh2) => some (b :: out, fresh2)
    else
      match MorphStmtList enabled escapingPointers classInfoOf objHeaderSize
          (isPartOfCycle b.bbNum) freshLclNum b.stmts with
      | none => none
      | some (stmts2, fresh1) =>
        match MorphAllocObjNodes enabled escapingPointers classInfoOf objHeaderSize
            isPartOfCycle fresh1 bs with
        | none => none
        | some (out, fresh2) => some ({ b with stmts := stmts2 } :: out, fresh2)

/-- C4: for every statement in canonical allocation-assignment shape, the
rewriter produces the stack-allocation sequence exactly when stack allocation
is enabled AND the destination slot is eligible AND the owning block is not
part of a cycle; in every other case it replaces the `GT_ALLOCOBJ` with a
call to the allocation helper whose sole argument is the class handle. -/
theorem C4_rewrite_condition :
    ∀ (enabled : Bool) (escapingPointers : Finset Nat) (classInfoOf : Nat → ClassInfo)
      (objHeaderSize : Nat) (inCycle : Bool) (freshLclNum lclNum newHelper clsHnd : Nat)
      (allocObjOp1 : GenTree),
      (MorphAllocObjStmt enabled escapingPointers classInfoOf objHeaderSize inCycle
          freshLclNum
          (.Asg .Ref (.LclVar lclNum .Ref) (.AllocObj newHelper clsHnd allocObjOp1)) =
          some (⟨(MorphAllocObjNodeIntoStackAlloc allocObjOp1 freshLclNum
                    (classInfoOf clsHnd).lvSize objHeaderSize).insertedStmts,
                 .Asg .Ref (.LclVar lclNum .Ref)
                   (MorphAllocObjNodeIntoStackAlloc allocObjOp1 freshLclNum
                     (classInfoOf clsHnd).lvSize objHeaderSize).replacement⟩,
                freshLclNum + 1)
        ↔ (enabled = true
            ∧ CanAllocateLclVarOnStack escapingPointers lclNum (classInfoOf clsHnd) = true
            ∧ inCycle = false))
      ∧ (¬(enabled = true
            ∧ CanAllocateLclVarOnStack escapingPointers lclNum (classInfoOf clsHnd) = true
            ∧ inCycle = false) →
          MorphAllocObjStmt enabled escapingPointers classInfoOf objHeaderSize inCycle
            freshLclNum
            (.Asg .Ref (.LclVar lclNum .Ref) (.AllocObj newHelper clsHnd allocObjOp1)) =
          some (⟨[], .Asg .Ref (.LclVar lclNum .Ref)
                  (MorphAllocObjNodeIntoHelperCall newHelper allocObjOp1)⟩,
                freshLclNum)) := by
  intro enabled escapingPointers classInfoOf objHeaderSize inCycle freshLclNum lclNum
    newHelper clsHnd allocObjOp1
  cases enabled <;> cases inCycle <;>
    cases hc : CanAllocateLclVarOnStack escapingPointers lclNum (classInfoOf clsHnd) <;>
      simp [MorphAllocObjStmt, hc, MorphAllocObjNodeIntoStackAlloc,
        MorphAllocObjNodeIntoHelperCall]

/-- Witness for C4: with stack allocation disabled the canonical site is
rewritten to the allocation-helper call carrying the class handle. -/
theorem C4_rewrite_condition_witness :
    MorphAllocObjStmt false ∅ (fun _ => ⟨false, false, 0, 24, 32⟩) 8 false 5
        (.Asg .Ref (.LclVar 0 .Ref) (.AllocObj 3 7 (.CnsInt 7))) =
      some (⟨[], .Asg .Ref (.LclVar 0 .Ref)
              (MorphAllocObjNodeIntoHelperCall 3 (.CnsInt 7))⟩, 5) :=
  (C4_rewrite_condition false ∅ (fun _ => ⟨false, false, 0, 24, 32⟩) 8 false 5 0 3 7
    (.CnsInt 7)).2 (by decide)

/-- C5: at every site rewritten to stack allocation the rewriter introduces a
fresh struct local laid out to the class's instance layout, inserts (in this
order, immediately before the original statement) a statement zero-filling
the entire slot and a statement storing the class identity at the slot's
header offset, replaces the construction expression by
`GT_ADD(GT_ADDR(slot), objHeaderSize)`, and leaves the surrounding
assignment — in particular its destination `GT_LCL_VAR` — unchanged. -/
theorem C5_stack_alloc_sequence :
    ∀ (enabled : Bool) (escapingPointers : Finset Nat) (classInfoOf : Nat → ClassInfo)
      (objHeaderSize : Nat) (inCycle : Bool) (freshLclNum lclNum newHelper clsHnd : Nat)
      (allocObjOp1 : GenTree),
      enabled = true →
      CanAllocateLclVarOnStack escapingPointers lclNum (classInfoOf clsHnd) = true →
      inCycle = false →
      MorphAllocObjStmt enabled escapingPointers classInfoOf objHeaderSize inCycle
          freshLclNum
          (.Asg .Ref (.LclVar lclNum .Ref) (.AllocObj newHelper clsHnd allocObjOp1)) =
        some (⟨[ .BlkOp (classInfoOf clsHnd).lvSize (.LclVar freshLclNum .Struct)
                   (.CnsInt 0),
                 .Asg .IImpl (.Field objHeaderSize (.Addr (.LclVar freshLclNum .Struct)))
                   allocObjOp1 ],
               .Asg .Ref (.LclVar lclNum .Ref)
                 (.Add (.Addr (.LclVar freshLclNum .Struct)) (.CnsInt objHeaderSize))⟩,
              freshLclNum + 1) := by
  intro enabled escapingPointers classInfoOf objHeaderSize inCycle freshLclNum lclNum
    newHelper clsHnd allocObjOp1 he hc hcy
  subst he
  subst hcy
  simp [MorphAllocObjStmt, hc, MorphAllocObjNodeIntoStackAlloc]

/-- Witness for C5 at a concrete eligible site. -/
theorem C5_stack_alloc_sequence_witness :
    MorphAllocObjStmt true ∅ (fun _ => ⟨false, false, 0, 24, 32⟩) 8 false 2
        (.Asg .Ref (.LclVar 0 .Ref) (.AllocObj 3 7 (.CnsInt 7))) =
      some (⟨[ .BlkOp 32 (.LclVar 2 .Struct) (.CnsInt 0),
               .Asg .IImpl (.Field 8 (.Addr (.LclVar 2 .Struct))) (.CnsInt 7) ],
             .Asg .Ref (.LclVar 0 .Ref) (.Add (.Addr (.LclVar 2 .Struct)) (.CnsInt 8))⟩,
            3) :=
  C5_stack_alloc_sequence true ∅ (fun _ => ⟨false, false, 0, 24, 32⟩) 8 false 2 0 3 7
    (.CnsInt 7) rfl (by decide) rfl

/-- C10: in non-verification builds the rewriter skips every basic block
whose `BBF_HAS_NEWOBJ` flag is clear, so such a block — all its statements
included — passes through `MorphAllocObjNodes` unchanged. -/
theorem C10_unflagged_block_unchanged :
    ∀ (enabled : Bool) (escapingPointers : Finset Nat) (classInfoOf : Nat → ClassInfo)
      (objHeaderSize : Nat) (isPartOfCycle : Nat → Bool) (freshLclNum : Nat)
      (b : BasicBlock) (bs : List BasicBlock),
      b.hasNewObj = false →
      MorphAllocObjNodes enabled escapingPointers classInfoOf objHeaderSize
          isPartOfCycle freshLclNum (b :: bs) =
        Option.map (fun r => (b :: r.1, r.2))
          (MorphAllocObjNodes enabled escapingPointers classInfoOf objHeaderSize
            isPartOfCycle freshLclNum bs) := by
  intro enabled escapingPointers classInfoOf objHeaderSize isPartOfCycle freshLclNum
    b bs h
  rw [MorphAllocObjNodes, h]
  cases hrec : MorphAllocObjNodes enabled escapingPointers classInfoOf objHeaderSize
      isPartOfCycle freshLclNum bs with
  | none => simp
  | some r => cases r; simp

/-- Witness for C10: a block containing a canonical, otherwise eligible
allocation site but with `BBF_HAS_NEWOBJ` clear is left entirely unchanged. -/
theorem C10_unflagged_block_unchanged_witness :
    MorphAllocObjNodes true ∅ (fun _ => ⟨false, false, 0, 24, 32⟩) 8 (fun _ => false) 5
        [⟨1, false, [.Asg .Ref (.LclVar 0 .Ref) (.AllocObj 3 7 (.CnsInt 7))]⟩] =
      some ([⟨1, false, [.Asg .Ref (.LclVar 0 .Ref) (.AllocObj 3 7 (.CnsInt 7))]⟩], 5) := by
  rw [C10_unflagged_block_unchanged true ∅ (fun _ => ⟨false, false, 0, 24, 32⟩) 8
    (fun _ => false) 5 ⟨1, false, [.Asg .Ref (.LclVar 0 .Ref) (.AllocObj 3 7 (.CnsInt 7))]⟩
    [] rfl]
  rfl

/-! ### Which pointer kinds the graph-building traversal classifies (C7) -/

/-- A one-slot table holding a managed-byref (`TYP_BYREF`) local. -/
def c7ByrefTable : List LclVarDsc := [⟨.Byref, false⟩]

/-- An escaping use of the byref slot V00: it is stored into a static field. -/
def c7ByrefStmts : List GenTree := [.Asg .Byref (.ClsVar 5) (.LclVar 0 .Byref)]

/-- The same program with V00 of kind `TYP_REF` instead. -/
def c7RefTable : List LclVarDsc := [⟨.Ref, false⟩]

/-- The same escaping use with a `TYP_REF` slot. -/
def c7RefStmts : List GenTree := [.Asg .Ref (.ClsVar 5) (.LclVar 0 .Ref)]

/-- C7 counterexample: the graph-building visitor does NOT classify leaf uses
of managed-byref slots.  Storing the byref slot V00 into a static field —
an escaping use — leaves the escaping root set empty, while the identical
program with a `TYP_REF` slot records V00 as escaping: byref uses are not
handled "exactly like those of reference slots", they are skipped. -/
theorem C7_byref_not_classified_counterexample :
    (BuildConnGraph c7ByrefTable scnPureHelper c7ByrefStmts).isSome = true
    ∧ buildRoots c7ByrefTable scnPureHelper c7ByrefStmts = ∅
    ∧ buildRoots c7RefTable scnPureHelper c7RefStmts = {0} := by
  exact ⟨by decide, by decide, by decide⟩

/-- C7 amended: during the traversal the classifier is applied at leaf
references of reference (`TYP_REF`) and interior-pointer (`TYP_I_IMPL`) kind
only; a leaf reference to a managed-byref slot never changes the analysis
state, while an escaping use of a reference or interior-pointer slot (in any
context other than the assignment and add cases handled by the graph
builder) adds the slot to the escaping root set. -/
theorem C7_classifier_kinds_amended :
    (∀ (isPureHelper : Nat → Bool) (st : AnalysisState) (lclNum : Nat)
        (rest : List GenTree),
        BuildConnGraphVisitor isPureHelper st (.LclVar lclNum .Byref :: rest) =
          some st)
    ∧ (∀ (isPureHelper : Nat → Bool) (st : AnalysisState) (lclNum : Nat)
        (ty : VarType) (parent : GenTree) (ancestors : List GenTree),
        (ty = .Ref ∨ ty = .IImpl) →
        parent.OperGet ≠ Oper.Asg →
        parent.OperGet ≠ Oper.Add →
        CanLclVarEscapeViaParentStack isPureHelper
          (.LclVar lclNum ty :: parent :: ancestors) lclNum = true →
        BuildConnGraphVisitor isPureHelper st
          (.LclVar lclNum ty :: parent :: ancestors) =
          some (MarkLclVarAsNonStackAlloc st lclNum)) := by
  constructor
  · intro isPureHelper st lclNum rest
    rfl
  · intro isPureHelper st lclNum ty parent ancestors hty hnasg hnadd hesc
    have hguard : (ty == VarType.Ref || ty == VarType.IImpl) = true := by
      rcases hty with h | h <;> simp [h]
    cases parent <;>
      first
        | exact absurd rfl hnasg
        | exact absurd rfl hnadd
        | simp [BuildConnGraphVisitor, hguard, hesc]

/-- Witness for the amended C7: an escaping `TYP_REF` use under a non-pure
user call is recorded in the root set. -/
theorem C7_classifier_kinds_amended_witness :
    BuildConnGraphVisitor scnPureHelper ⟨∅, [some ∅]⟩
      [.LclVar 0 .Ref, .Call .UserFunc 9 false .Nop .Nop] =
      some (MarkLclVarAsNonStackAlloc ⟨∅, [some ∅]⟩ 0) :=
  C7_classifier_kinds_amended.2 scnPureHelper ⟨∅, [some ∅]⟩ 0 .Ref
    (.Call .UserFunc 9 false .Nop .Nop) [] (Or.inl rfl) (by decide) (by decide)
    (by decide)

/-! ### Edges of the connectivity graph (C8) -/

/-- The table type of slot `i` (`VoidTy` for out-of-range ids). -/
def lvTypeAt (lvaTable : List LclVarDsc) (i : Nat) : VarType :=
  match lvaTable[i]? with
  | some d => d.lvType
  | none => .VoidTy

/-- Whether slot `i` currently has an initialised pointee set. -/
def slotHasSet (st : AnalysisState) (i : Nat) : Bool :=
  match st.connGraphPointees[i]? with
  | some (some _) => true
  | _ => false

/-- Well-formed IR with respect to the local table: every `GT_LCL_VAR` node
refers to an existing slot and carries the slot's table type. -/
def nodesWF (lvaTable : List LclVarDsc) : GenTree → Bool
  | .LclVar l ty => decide (l < lvaTable.length) && (lvTypeAt lvaTable l == ty)
  | .CnsInt _ => true
  | .Asg _ a b => nodesWF lvaTable a && nodesWF lvaTable b
  | .AllocObj _ _ a => nodesWF lvaTable a
  | .Add a b => nodesWF lvaTable a && nodesWF lvaTable b
  | .Ind a => nodesWF lvaTable a
  | .EqCmp a b => nodesWF lvaTable a && nodesWF lvaTable b
  | .NeCmp a b => nodesWF lvaTable a && nodesWF lvaTable b
  | .Field _ a => nodesWF lvaTable a
  | .Addr a => nodesWF lvaTable a
  | .Call _ _ _ t a => nodesWF lvaTable t && nodesWF lvaTable a
  | .ClsVar _ => true
  | .BlkOp _ a b => nodesWF lvaTable a && nodesWF lvaTable b
  | .ListNode a b => nodesWF lvaTable a && nodesWF lvaTable b
  | .Nop => true

/-- Invariant maintained while building the connectivity graph: pointee sets
exist only for pointer-kind slots, and every recorded edge joins two slots
both of pointer kind. -/
def GraphInv (lvaTable : List LclVarDsc) (st : AnalysisState) : Prop :=
  (∀ i, slotHasSet st i = true → isPointerKind (lvTypeAt lvaTable i) = true)
  ∧ (∀ i j, j ∈ pointeesAt st i →
      isPointerKind (lvTypeAt lvaTable i) = true
      ∧ isPointerKind (lvTypeAt lvaTable j) = true)

theorem GraphInv_init (lvaTable : List LclVarDsc) :
    GraphInv lvaTable (initConnGraphState lvaTable) := by
  constructor
  · intro i hi
    unfold slotHasSet initConnGraphState at hi
    rw [List.getElem?_map] at hi
    unfold lvTypeAt
    cases hd : lvaTable[i]? with
    | none => rw [hd] at hi; simp at hi
    | some d =>
      rw [hd] at hi
      cases hp : isPointerKind d.lvType with
      | false => simp [hp] at hi
      | true => rfl
  · intro i j hj
    exfalso
    unfold pointeesAt initConnGraphState at hj
    rw [List.getElem?_map] at hj
    cases hd : lvaTable[i]? with
    | none => rw [hd] at hj; simp at hj
    | some d =>
      rw [hd] at hj
      cases hp : isPointerKind d.lvType with
      | false => simp [hp] at hj
      | true => simp [hp] at hj

theorem GraphInv_set (lvaTable : List LclVarDsc) (st st' : AnalysisState)
    (ptr pte : Nat) (hInv : GraphInv lvaTable st)
    (hpte : isPointerKind (lvTypeAt lvaTable pte) = true)
    (h : SetPointerPointeeRel st ptr pte = some st') : GraphInv lvaTable st' := by
  unfold SetPointerPointeeRel at h
  cases hentry : st.connGraphPointees[ptr]? with
  | none => rw [hentry] at h; exact absurd h (by simp)
  | some o =>
    cases o with
    | none => rw [hentry] at h; exact absurd h (by simp)
    | some s =>
      rw [hentry] at h
      simp only [Option.some.injEq] at h
      subst h
      have hptrlt : ptr < st.connGraphPointees.length := by
        by_contra hge
        rw [List.getElem?_eq_none (by omega)] at hentry
        cases hentry
      have hptrkind : isPointerKind (lvTypeAt lvaTable ptr) = true := by
        apply hInv.1 ptr
        unfold slotHasSet
        rw [hentry]
      constructor
      · intro i hi
        by_cases hip : i = ptr
        · rw [hip]; exact hptrkind
        · apply hInv.1 i
          unfold slotHasSet at hi ⊢
          rwa [List.getElem?_set_ne (fun hh => hip hh.symm)] at hi
      · intro i j hj
        by_cases hip : i = ptr
        · unfold pointeesAt at hj
          rw [hip] at hj ⊢
          rw [List.getElem?_set_eq_of_lt _ hptrlt] at hj
          rcases Finset.mem_insert.mp hj with hj1 | hj2
          · rw [hj1]; exact ⟨hptrkind, hpte⟩
          · refine hInv.2 ptr j ?_
            unfold pointeesAt
            rw [hentry]
            exact hj2
        · apply hInv.2 i j
          unfold pointeesAt at hj ⊢
          rwa [List.getElem?_set_ne (fun hh => hip hh.symm)] at hj

/-- Any successful visit either leaves the state unchanged, only marks a
local as escaping, or records one pointer→pointee edge whose pointee is the
visited `TYP_REF`/`TYP_I_IMPL` leaf. -/
theorem BuildConnGraphVisitor_cases (iph : Nat → Bool) (st : AnalysisState)
    (stack : List GenTree) (st' : AnalysisState)
    (h : BuildConnGraphVisitor iph st stack = some st') :
    st' = st ∨ (∃ l, st' = MarkLclVarAsNonStackAlloc st l)
    ∨ (∃ ptr l ty, stack.head? = some (GenTree.LclVar l ty)
        ∧ (ty = VarType.Ref ∨ ty = VarType.IImpl)
        ∧ SetPointerPointeeRel st ptr l = some st') := by
  unfold BuildConnGraphVisitor at h
  repeat
    first
    | split at h
    | exact Option.noConfusion h
    | exact Or.inl (Option.some.inj h).symm
    | exact Or.inr (Or.inl ⟨_, (Option.some.inj h).symm⟩)
    | (refine Or.inr (Or.inr ⟨_, _, _, rfl, ?_, h⟩)
       simp_all)

theorem BuildConnGraphVisitor_inv (lvaTable : List LclVarDsc) (iph : Nat → Bool)
    (st st' : AnalysisState) (t : GenTree) (anc : List GenTree)
    (hInv : GraphInv lvaTable st) (hWF : nodesWF lvaTable t = true)
    (h : BuildConnGraphVisitor iph st (t :: anc) = some st') :
    GraphInv lvaTable st' := by
  rcases BuildConnGraphVisitor_cases iph st (t :: anc) st' h with
    h1 | ⟨l, h2⟩ | ⟨ptr, l, ty, ht, hty, hset⟩
  · rwa [h1]
  · rw [h2]; exact hInv
  · refine GraphInv_set lvaTable st st' ptr l hInv ?_ hset
    have ht' : t = GenTree.LclVar l ty := by
      simpa using ht
    rw [ht'] at hWF
    simp only [nodesWF, Bool.and_eq_true, decide_eq_true_eq, beq_iff_eq] at hWF
    rw [hWF.2]
    rcases hty with hr | hr <;> rw [hr] <;> rfl

theorem option_match_bind {A B : Type} (w : Option A) (g : A → Option B) (r : B)
    (h : (match w with | none => none | some x => g x) = some r) :
    ∃ x, w = some x ∧ g x = some r := by
  cases w with
  | none => exact Option.noConfusion h
  | some x => exact ⟨x, rfl, h⟩

theorem fgWalkTreePre_inv (lvaTable : List LclVarDsc) (iph : Nat → Bool) :
    ∀ (t : GenTree) (anc : List GenTree) (st st' : AnalysisState),
      GraphInv lvaTable st → nodesWF lvaTable t = true →
      fgWalkTreePre iph st anc t = some st' → GraphInv lvaTable st' := by
  intro t
  induction t with
  | LclVar l ty =>
    intro anc st st' hInv hWF h
    rw [fgWalkTreePre] at h
    exact BuildConnGraphVisitor_inv lvaTable iph st st' _ anc hInv hWF h
  | CnsInt v =>
    intro anc st st' hInv hWF h
    rw [fgWalkTreePre] at h
    exact BuildConnGraphVisitor_inv lvaTable iph st st' _ anc hInv hWF h
  | ClsVar f =>
    intro anc st st' hInv hWF h
    rw [fgWalkTreePre] at h
    exact BuildConnGraphVisitor_inv lvaTable iph st st' _ anc hInv hWF h
  | Nop =>
    intro anc st st' hInv hWF h
    rw [fgWalkTreePre] at h
    exact BuildConnGraphVisitor_inv lvaTable iph st st' _ anc hInv hWF h
  | Asg ty a b iha ihb =>
    intro anc st st' hInv hWF h
    have hWFab := hWF
    simp only [nodesWF, Bool.and_eq_true] at hWFab
    rw [fgWalkTreePre, Option.bind_eq_some] at h
    obtain ⟨st1, hv, h1⟩ := h
    rw [Option.bind_eq_some] at h1
    obtain ⟨st2, hw1, h2⟩ := h1
    exact ihb _ _ _
      (iha _ _ _ (BuildConnGraphVisitor_inv lvaTable iph st st1 _ anc hInv hWF hv)
        hWFab.1 hw1) hWFab.2 h2
  | Add a b iha ihb =>
    intro anc st st' hInv hWF h
    have hWFab := hWF
    simp only [nodesWF, Bool.and_eq_true] at hWFab
    rw [fgWalkTreePre, Option.bind_eq_some] at h
    obtain ⟨st1, hv, h1⟩ := h
    rw [Option.bind_eq_some] at h1
    obtain ⟨st2, hw1, h2⟩ := h1
    exact ihb _ _ _
      (iha _ _ _ (BuildConnGraphVisitor_inv lvaTable iph st st1 _ anc hInv hWF hv)
        hWFab.1 hw1) hWFab.2 h2
  | EqCmp a b iha ihb =>
    intro anc st st' hInv hWF h
    have hWFab := hWF
    simp only [nodesWF, Bool.and_eq_true] at hWFab
    rw [fgWalkTreePre, Option.bind_eq_some] at h
    obtain ⟨st1, hv, h1⟩ := h
    rw [Option.bind_eq_some] at h1
    obtain ⟨st2, hw1, h2⟩ := h1
    exact ihb _ _ _
      (iha _ _ _ (BuildConnGraphVisitor_inv lvaTable iph st st1 _ anc hInv hWF hv)
        hWFab.1 hw1) hWFab.2 h2
  | NeCmp a b iha ihb =>
    intro anc st st' hInv hWF h
    have hWFab := hWF
    simp only [nodesWF, Bool.and_eq_true] at hWFab
    rw [fgWalkTreePre, Option.bind_eq_some] at h
    obtain ⟨st1, hv, h1⟩ := h
    rw [Option.bind_eq_some] at h1
    obtain ⟨st2, hw1, h2⟩ := h1
    exact ihb _ _ _
      (iha _ _ _ (BuildConnGraphVisitor_inv lvaTable iph st st1 _ anc hInv hWF hv)
        hWFab.1 hw1) hWFab.2 h2
  | BlkOp sz a b iha ihb =>
    intro anc st st' hInv hWF h
    have hWFab := hWF
    simp only [nodesWF, Bool.and_eq_true] at hWFab
    rw [fgWalkTreePre, Option.bind_eq_some] at h
    obtain ⟨st1, hv, h1⟩ := h
    rw [Option.bind_eq_some] at h1
    obtain ⟨st2, hw1, h2⟩ := h1
    exact ihb _ _ _
      (iha _ _ _ (BuildConnGraphVisitor_inv lvaTable iph st st1 _ anc hInv hWF hv)
        hWFab.1 hw1) hWFab.2 h2
  | ListNode a b iha ihb =>
    intro anc st st' hInv hWF h
    have hWFab := hWF
    simp only [nodesWF, Bool.and_eq_true] at hWFab
    rw [fgWalkTreePre, Option.bind_eq_some] at h
    obtain ⟨st1, hv, h1⟩ := h
    rw [Option.bind_eq_some] at h1
    obtain ⟨st2, hw1, h2⟩ := h1
    exact ihb _ _ _
      (iha _ _ _ (BuildConnGraphVisitor_inv lvaTable iph st st1 _ anc hInv hWF hv)
        hWFab.1 hw1) hWFab.2 h2
  | Call ck mh dinv ta args ihta ihargs =>
    intro anc st st' hInv hWF h
    have hWFab := hWF
    simp only [nodesWF, Bool.and_eq_true] at hWFab
    rw [fgWalkTreePre, Option.bind_eq_some] at h
    obtain ⟨st1, hv, h1⟩ := h
    rw [Option.bind_eq_some] at h1
    obtain ⟨st2, hw1, h2⟩ := h1
    exact ihargs _ _ _
      (ihta _ _ _ (BuildConnGraphVisitor_inv lvaTable iph st st1 _ anc hInv hWF hv)
        hWFab.1 hw1) hWFab.2 h2
  | AllocObj nh ch a iha =>
    intro anc st st' hInv hWF h
    have hWFa : nodesWF lvaTable a = true := by simpa only [nodesWF] using hWF
    rw [fgWalkTreePre, Option.bind_eq_some] at h
    obtain ⟨st1, hv, h1⟩ := h
    exact iha _ _ _ (BuildConnGraphVisitor_inv lvaTable iph st st1 _ anc hInv hWF hv)
      hWFa h1
  | Ind a iha =>
    intro anc st st' hInv hWF h
    have hWFa : nodesWF lvaTable a = true := by simpa only [nodesWF] using hWF
    rw [fgWalkTreePre, Option.bind_eq_some] at h
    obtain ⟨st1, hv, h1⟩ := h
    exact iha _ _ _ (BuildConnGraphVisitor_inv lvaTable iph st st1 _ anc hInv hWF hv)
      hWFa h1
  | Field off a iha =>
    intro anc st st' hInv hWF h
    have hWFa : nodesWF lvaTable a = true := by simpa only [nodesWF] using hWF
    rw [fgWalkTreePre, Option.bind_eq_some] at h
    obtain ⟨st1, hv, h1⟩ := h
    exact iha _ _ _ (BuildConnGraphVisitor_inv lvaTable iph st st1 _ anc hInv hWF hv)
      hWFa h1
  | Addr a iha =>
    intro anc st st' hInv hWF h
    have hWFa : nodesWF lvaTable a = true := by simpa only [nodesWF] using hWF
    rw [fgWalkTreePre, Option.bind_eq_some] at h
    obtain ⟨st1, hv, h1⟩ := h
    exact iha _ _ _ (BuildConnGraphVisitor_inv lvaTable iph st st1 _ anc hInv hWF hv)
      hWFa h1

theorem walkStmts_inv (lvaTable : List LclVarDsc) (iph : Nat → Bool) :
    ∀ (stmts : List GenTree) (st st' : AnalysisState),
      GraphInv lvaTable st → (∀ s ∈ stmts, nodesWF lvaTable s = true) →
      walkStmts iph st stmts = some st' → GraphInv lvaTable st' := by
  intro stmts
  induction stmts with
  | nil =>
    intro st st' hInv _ h
    rw [walkStmts] at h
    rwa [← Option.some.inj h]
  | cons s rest ih =>
    intro st st' hInv hWF h
    rw [walkStmts, Option.bind_eq_some] at h
    obtain ⟨st1, hw, h1⟩ := h
    exact ih st1 st'
      (fgWalkTreePre_inv lvaTable iph s [] st st1 hInv (hWF s (by simp)) hw)
      (fun u hu => hWF u (by simp [hu])) h1

/-- C8: every edge recorded into the connectivity graph by `BuildConnGraph`
joins two slots that are both of pointer kind (on a well-formed procedure
body), and an attempt to record a pointer→pointee edge whose pointer slot has
no pointee set (a non-pointer-kind slot, whose set is `UninitVal`) is a hard
failure of `SetPointerPointeeRel` rather than a silently recorded edge. -/
theorem C8_edges_pointer_kind :
    (∀ (lvaTable : List LclVarDsc) (isPureHelper : Nat → Bool)
        (stmts : List GenTree) (st : AnalysisState),
        (∀ s ∈ stmts, nodesWF lvaTable s = true) →
        BuildConnGraph lvaTable isPureHelper stmts = some st →
        ∀ i j, j ∈ pointeesAt st i →
          isPointerKind (lvTypeAt lvaTable i) = true
          ∧ isPointerKind (lvTypeAt lvaTable j) = true)
    ∧ (∀ (st : AnalysisState) (ptr pte : Nat),
        st.connGraphPointees[ptr]? = some none →
        SetPointerPointeeRel st ptr pte = none) := by
  constructor
  · intro lvaTable isPureHelper stmts st hWF h i j hj
    exact (walkStmts_inv lvaTable isPureHelper stmts (initConnGraphState lvaTable) st
      (GraphInv_init lvaTable) hWF h).2 i j hj
  · intro st ptr pte hentry
    unfold SetPointerPointeeRel
    rw [hentry]

/-- Witness for C8 on the concrete scenario program: the recorded edge
V01→V00 joins two pointer-kind (`TYP_REF`) slots. -/
theorem C8_edges_pointer_kind_witness :
    isPointerKind (lvTypeAt scnTable 1) = true
    ∧ isPointerKind (lvTypeAt scnTable 0) = true :=
  C8_edges_pointer_kind.1 scnTable scnPureHelper scnStmts
    ⟨{1}, [some ∅, some {0}]⟩ (by decide) (by decide) 1 0 (by decide)
